import Mathlib

/-!
Verification of the Game of Life engine (`src/components/universe.rs`) and the
RLE pattern decoder (`src/parsers.rs`) of the `game-of-life` repository.

The Rust code is shallowly embedded: `Vec<Vec<Cell>>` becomes
`List (List Cell)`, `usize` ages become `Nat` with explicit saturation at
`2^64 - 1`, `isize` pattern coordinates become `Int`, and operations that can
panic (out-of-bounds indexing) return `Option`/`Except` with a distinguished
outcome for the panic.
-/

set_option autoImplicit false

namespace GoL

/-- usize::MAX, the representable maximum of a cell age. -/
def usizeMax : Nat := 2 ^ 64 - 1

/-- `i.saturating_add(1)` on a `usize` age. -/
def satAdd1 (i : Nat) : Nat := min (i + 1) usizeMax

/-- `Cell` from `parsers.rs`: a state tag carrying a `usize` age. -/
inductive Cell where
  | Dead (age : Nat)
  | Alive (age : Nat)
deriving DecidableEq, Repr

/-- The grid-owning part of the `Universe` struct from `universe.rs`. -/
structure Universe where
  width : Nat
  height : Nat
  cells : List (List Cell)
deriving DecidableEq, Repr

/-- Well-formedness: `cells` is a rectangular `height × width` matrix. -/
def WF (u : Universe) : Prop :=
  u.cells.length = u.height ∧ ∀ row ∈ u.cells, row.length = u.width

instance (u : Universe) : Decidable (WF u) := by
  unfold WF; infer_instance

/-- Checked double indexing `cells[r][c]`; `none` models the Rust panic. -/
def getCellM (cells : List (List Cell)) (r c : Nat) : Option Cell :=
  match cells[r]? with
  | some rowL => rowL[c]?
  | none => none

/-- Total read with the default used only out of range. -/
def cellD (cells : List (List Cell)) (r c : Nat) : Cell :=
  (getCellM cells r c).getD (Cell.Dead 0)

/-- `true` iff a cell value is `Alive`. -/
def isAliveCell : Cell → Bool
  | Cell.Alive _ => true
  | Cell.Dead _ => false

/-- `true` iff the cell read at `(r, c)` is `Alive`. -/
def aliveB (cells : List (List Cell)) (r c : Nat) : Bool :=
  match getCellM cells r c with
  | some cell => isAliveCell cell
  | none => false

/-- Indicator (0 or 1) of an `Alive` cell at `(r, c)`. -/
def aliveNat (cells : List (List Cell)) (r c : Nat) : Nat :=
  match getCellM cells r c with
  | some (Cell.Alive _) => 1
  | _ => 0

/-- The row-major list of `(delta_row, delta_col)` pairs iterated by
`live_neighbor_count`: `[self.height - 1, 0, 1] × [self.width - 1, 0, 1]`. -/
def deltaPairs (h w : Nat) : List (Nat × Nat) :=
  [h - 1, 0, 1].flatMap (fun dr => [w - 1, 0, 1].map (fun dc => (dr, dc)))

/-- One iteration of the `live_neighbor_count` loop body: pairs whose value is
`(0, 0)` are skipped, otherwise the wrapped neighbor is read (a failed read
models the Rust indexing panic). -/
def neighborStep (cells : List (List Cell)) (h w r c : Nat)
    (acc : Option Nat) : Nat × Nat → Option Nat
  | (dr, dc) =>
    if dr = 0 ∧ dc = 0 then acc
    else
      match acc, getCellM cells ((r + dr) % h) ((c + dc) % w) with
      | some n, some (Cell.Alive _) => some (n + 1)
      | some n, some (Cell.Dead _) => some n
      | _, _ => none

/-- `Universe::live_neighbor_count`. -/
def live_neighbor_count (u : Universe) (r c : Nat) : Option Nat :=
  (deltaPairs u.height u.width).foldl
    (neighborStep u.cells u.height u.width r c) (some 0)

/-- One iteration of the neighbor loop with total reads (used to state the
value `live_neighbor_count` computes when no read panics). -/
def countStep (cells : List (List Cell)) (h w r c : Nat)
    (acc : Nat) : Nat × Nat → Nat
  | (dr, dc) =>
    if dr = 0 ∧ dc = 0 then acc
    else acc + aliveNat cells ((r + dr) % h) ((c + dc) % w)

/-- The neighbor count as a total function. -/
def neighborCountD (u : Universe) (r c : Nat) : Nat :=
  (deltaPairs u.height u.width).foldl (countStep u.cells u.height u.width r c) 0

/-- The per-cell transition rule of `Universe::tick`, written with the same
match arms in the same order as the Rust `match (cell, live_neighbors)`. -/
def nextCell (cell : Cell) (n : Nat) : Cell :=
  match cell with
  | Cell.Alive i =>
    if n < 2 then Cell.Dead 0
    else if n = 2 ∨ n = 3 then Cell.Alive (satAdd1 i)
    else if n > 3 then Cell.Dead 0
    else Cell.Alive (satAdd1 i)
  | Cell.Dead i =>
    if n = 3 then Cell.Alive 0 else Cell.Dead (satAdd1 i)

/-- The inner `for col in 0..self.width` loop of `tick`, writing into the
current row `acc` of `next`; `fuel` counts the remaining columns. -/
def tickRowLoop (u : Universe) (row : Nat) :
    Nat → Nat → List Cell → Option (List Cell)
  | _, 0, acc => some acc
  | col, fuel + 1, acc =>
    match getCellM u.cells row col, live_neighbor_count u row col with
    | some cell, some n => tickRowLoop u row (col + 1) fuel (acc.set col (nextCell cell n))
    | _, _ => none

/-- The outer `for row in 0..self.height` loop of `tick` over `next`. -/
def tickRows (u : Universe) :
    Nat → Nat → List (List Cell) → Option (List (List Cell))
  | _, 0, next => some next
  | row, fuel + 1, next =>
    match next[row]? with
    | some rowAcc =>
      match tickRowLoop u row 0 u.width rowAcc with
      | some newRow => tickRows u (row + 1) fuel (next.set row newRow)
      | none => none
    | none => none

/-- `Universe::tick`: `next` starts as a clone of `cells`, every in-range
position is overwritten from the read-only current generation, and the result
replaces `cells`.  `none` models an indexing panic. -/
def tick (u : Universe) : Option Universe :=
  (tickRows u 0 u.height u.cells).map (fun next => { u with cells := next })

/-- The row `tick` produces at index `row` (its closed form). -/
def nextRowFn (u : Universe) (row : Nat) : List Cell :=
  (List.range u.width).map (fun col => nextCell (cellD u.cells row col) (neighborCountD u row col))

/-- The closed form of `tick` on a well-formed grid. -/
def tickPure (u : Universe) : Universe :=
  { u with cells := (List.range u.height).map (nextRowFn u) }

/-- The `Action::Insert(r, c)` arm of `Universe::update`:
`self.cells[r][c] = Cell::Alive(0)`, with `none` modelling the bounds panic. -/
def insertCell (cells : List (List Cell)) (r c : Nat) : Option (List (List Cell)) :=
  match cells[r]? with
  | some rowL => if c < rowL.length then some (cells.set r (rowL.set c (Cell.Alive 0))) else none
  | none => none

/-- In-place matrix write used by pattern stamping (bounds already checked by
the caller, so a silent no-op out of range). -/
def setMat (cells : List (List Cell)) (r c : Nat) (v : Cell) : List (List Cell) :=
  match cells[r]? with
  | some rowL => cells.set r (rowL.set c v)
  | none => cells

/-- `usize → isize` cast (two's complement, balanced residue mod `2^64`). -/
def isizeOf (n : Nat) : Int := (n : Int).bmod (2 ^ 64)

/-- `isize → usize` cast: the nonnegative residue mod `2^64`. -/
def castUsize (t : Int) : Nat := (t % (2 ^ 64 : Int)).toNat

/-- The stamping loop of `Universe::pattern`: each live-cell offset is
translated by `(width / 2, height / 2)`, cast to `usize`, bounds-checked and
written as `Alive(0)`; out-of-range results are skipped. -/
def stampPattern (width height : Nat) (cells : List (List Cell))
    (pcells : List (Int × Int)) : List (List Cell) :=
  pcells.foldl (fun acc p =>
    let x := castUsize (p.1 + isizeOf (width / 2))
    let y := castUsize (p.2 + isizeOf (height / 2))
    if y < height ∧ x < width then setMat acc y x (Cell.Alive 0) else acc) cells

/-! ## The RLE decoder (`parsers.rs`)

Strings are handled as `List Char`.  Errors returned through `eyre` become
`Except` values; the one reachable panic (indexing `v[1]` in the header
parser) gets its own distinguished error constructor `headerPanic`. -/

/-- The distinguishable failure modes of `parse_rle_file`. -/
inductive RleError where
  | unknownMeta (c : Char)
  | missingHeader
  | parseNum (s : List Char)
  | headerPanic
  | unexpectedChar (c : Char)
deriving DecidableEq, Repr

/-- The `Pattern` struct from `parsers.rs`. -/
structure Pattern where
  cells : List (Int × Int) := []
  name : Option (List Char) := none
  description : Option (List Char) := none
  author : Option (List Char) := none
  area : Option (Nat × Nat) := none
deriving DecidableEq, Repr

/-- Rust `char::is_whitespace` (the Unicode White_Space code points). -/
def rustWsp (c : Char) : Bool :=
  c.toNat ∈ [0x9, 0xA, 0xB, 0xC, 0xD, 0x20, 0x85, 0xA0, 0x1680,
    0x2000, 0x2001, 0x2002, 0x2003, 0x2004, 0x2005, 0x2006, 0x2007,
    0x2008, 0x2009, 0x200A, 0x2028, 0x2029, 0x202F, 0x205F, 0x3000]

/-- Rust `str::trim`. -/
def trimChars (s : List Char) : List Char :=
  ((s.dropWhile rustWsp).reverse.dropWhile rustWsp).reverse

/-- `str::split_inclusive('\n')`: break the text after every newline. -/
def splitInc : List Char → List (List Char)
  | [] => []
  | c :: rest =>
    match splitInc rest with
    | [] => [[c]]
    | cur :: done => if c = '\n' then [c] :: cur :: done else (c :: cur) :: done

/-- Strip a trailing `'\n'` and, only then, a trailing `'\r'` (the map used by
`str::lines`). -/
def stripEol (l : List Char) : List Char :=
  if l.getLast? = some '\n' then
    let l2 := l.dropLast
    if l2.getLast? = some '\r' then l2.dropLast else l2
  else l

/-- Rust `str::lines`. -/
def linesRust (s : List Char) : List (List Char) :=
  (splitInc s).map stripEol

/-- `line.starts_with('#')`. -/
def startsHash : List Char → Bool
  | '#' :: _ => true
  | _ => false

/-- Rust `str::contains` for a substring pattern. -/
def containsSub (pat : List Char) : List Char → Bool
  | [] => pat.isEmpty
  | c :: rest => pat.isPrefixOf (c :: rest) || containsSub pat rest

/-- Split on every non-overlapping occurrence of `pat`, scanning left to
right; `fuel` bounds the recursion (adequate whenever `fuel ≥ s.length`). -/
def splitSubF (pat : List Char) : Nat → List Char → List (List Char)
  | _, [] => [[]]
  | 0, s => [s]
  | fuel + 1, c :: rest =>
    if pat ≠ [] ∧ pat.isPrefixOf (c :: rest) then
      [] :: splitSubF pat fuel ((c :: rest).drop pat.length)
    else
      match splitSubF pat fuel rest with
      | [] => [[c]]
      | cur :: done => (c :: cur) :: done

/-- Rust `str::replace(pat, "")`: remove every non-overlapping occurrence of
`pat`, scanning left to right; `fuel` as in `splitSubF`. -/
def removeSubF (pat : List Char) : Nat → List Char → List Char
  | _, [] => []
  | 0, s => s
  | fuel + 1, c :: rest =>
    if pat ≠ [] ∧ pat.isPrefixOf (c :: rest) then
      removeSubF pat fuel ((c :: rest).drop pat.length)
    else c :: removeSubF pat fuel rest

/-- Rust `str::parse::<usize>()`: optional leading `'+'`, one or more decimal
digits, value at most `usize::MAX`. -/
def parseUsize (s : List Char) : Option Nat :=
  let t := match s with
    | '+' :: rest => rest
    | _ => s
  if t = [] then none
  else if t.all (fun c => '0' ≤ c ∧ c ≤ '9') then
    let v := t.foldl (fun a c => a * 10 + (c.toNat - 48)) 0
    if v ≤ usizeMax then some v else none
  else none

/-- Accumulate a description line: joined to any prior description by a
newline. -/
def appendDesc (old : Option (List Char)) (d : List Char) : List Char :=
  match old with
  | some o => o ++ '\n' :: d
  | none => d

/-- Processing of one leading `'#'` metadata line. -/
def metaLine (pat : Pattern) (line : List Char) : Except RleError Pattern :=
  match line.drop 1 with
  | [] => .ok pat
  | c :: rest =>
    if c = 'N' then
      let name := trimChars rest
      .ok (if name = [] then pat else { pat with name := some name })
    else if c = 'C' ∨ c = 'c' then
      let d := trimChars rest
      .ok { pat with description := some (appendDesc pat.description d) }
    else if c = 'O' then
      .ok { pat with author := some (trimChars rest) }
    else .error (.unknownMeta c)

/-- Processing of the header line (`x = m, y = n`).  When the line contains
both `"x = "` and `"y = "` it is split on `", "`; indexing the second field of
a split with fewer than two fields is the Rust `v[1]` panic. -/
def headerLine (pat : Pattern) (line : List Char) : Except RleError Pattern :=
  if containsSub ("x = ".data) line ∧ containsSub ("y = ".data) line then
    match splitSubF (", ".data) line.length line with
    | xf :: yf :: _ =>
      match parseUsize (removeSubF ("x = ".data) xf.length xf) with
      | none => .error (.parseNum (removeSubF ("x = ".data) xf.length xf))
      | some x =>
        match parseUsize (removeSubF ("y = ".data) yf.length yf) with
        | none => .error (.parseNum (removeSubF ("y = ".data) yf.length yf))
        | some y => .ok { pat with area := some (x, y) }
    | _ => .error .headerPanic
  else .ok pat

/-- Metadata block and header line of `parse_rle_file`; returns the pattern
so far and the remaining (body) lines. -/
def parsePrelude (s : List Char) : Except RleError (Pattern × List (List Char)) :=
  match ((linesRust s).takeWhile startsHash).foldlM metaLine {} with
  | .error e => .error e
  | .ok pat =>
    match (linesRust s).dropWhile startsHash with
    | [] => .error .missingHeader
    | header :: body =>
      match headerLine pat header with
      | .error e => .error e
      | .ok pat2 => .ok (pat2, body)

/-- Result of consuming the characters of one `'$'`-delimited row segment. -/
inductive SegOut where
  | done (p : Pattern)
  | err (c : Char)
  | cont (p : Pattern) (amount : Int)
deriving DecidableEq, Repr

/-- The inner character loop of the body parser, with the running column
cursor `x` and run-length accumulator `amount` (both `isize`). -/
def runSeg (pat : Pattern) (y x amount : Int) : List Char → SegOut
  | [] => .cont pat amount
  | c :: rest =>
    if c = 'b' ∨ c = '.' then
      if amount = 0 then runSeg pat y (x + 1) 0 rest
      else runSeg pat y (x + amount) 0 rest
    else if c = 'o' ∨ c = 'A' then
      if amount = 0 then
        runSeg { pat with cells := pat.cells ++ [(x, y)] } y (x + 1) 0 rest
      else
        runSeg { pat with cells :=
            pat.cells ++ (List.range amount.toNat).map (fun i => (x + (i : Int), y)) }
          y (x + amount) 0 rest
    else if '0' ≤ c ∧ c ≤ '9' then
      runSeg pat y x (amount * 10 + ((c.toNat : Int) - 48)) rest
    else if c = '!' then .done pat
    else .err c

/-- The outer loop of the body parser over the `'$'`-split segments: each
segment starts with `x = 0` and `amount = 0`, and afterwards the row cursor
advances by the leftover `amount` if nonzero, else by 1. -/
def runData (pat : Pattern) (y : Int) : List (List Char) → Except RleError Pattern
  | [] => .ok pat
  | seg :: rest =>
    match runSeg pat y 0 0 seg with
    | .done p => .ok p
    | .err c => .error (.unexpectedChar c)
    | .cont p amount => runData p (y + (if amount ≠ 0 then amount else 1)) rest

/-- Split on a single character (Rust `str::split('$')`). -/
def splitChar (sep : Char) : List Char → List (List Char)
  | [] => [[]]
  | c :: rest =>
    match splitChar sep rest with
    | [] => if c = sep then [[], []] else [[c]]
    | cur :: done => if c = sep then [] :: cur :: done else (c :: cur) :: done

/-- `parse_rle_file` on a character list. -/
def parseRle (s : List Char) : Except RleError Pattern :=
  match parsePrelude s with
  | .error e => .error e
  | .ok (pat, body) => runData pat 0 (splitChar '$' body.flatten)

instance exceptDecEq {e a : Type} [DecidableEq e] [DecidableEq a] :
    DecidableEq (Except e a)
  | .ok x, .ok y =>
    if h : x = y then isTrue (h ▸ rfl) else isFalse (fun hh => h (Except.ok.inj hh))
  | .error x, .error y =>
    if h : x = y then isTrue (h ▸ rfl) else isFalse (fun hh => h (Except.error.inj hh))
  | .ok _, .error _ => isFalse Except.noConfusion
  | .error _, .ok _ => isFalse Except.noConfusion

/-- `parse_rle_file` from `parsers.rs`. -/
def parse_rle_file (s : String) : Except RleError Pattern :=
  parseRle s.data

/-! ## Basic facts about grid reads and the tick loops -/

theorem getCellM_eq_some {u : Universe} (hWF : WF u) {r c : Nat}
    (hr : r < u.height) (hc : c < u.width) :
    getCellM u.cells r c = some (cellD u.cells r c) := by
  obtain ⟨hlen, hrow⟩ := hWF
  have hr' : r < u.cells.length := by omega
  have hc' : c < u.cells[r].length := by
    rw [hrow u.cells[r] (List.getElem_mem hr')]; exact hc
  have h1 : getCellM u.cells r c = some u.cells[r][c] := by
    unfold getCellM
    rw [List.getElem?_eq_getElem hr']
    exact List.getElem?_eq_getElem hc'
  rw [cellD, h1]
  rfl

theorem foldl_neighbor_lift (u : Universe) (hWF : WF u) (r c : Nat)
    (hh : 0 < u.height) (hw : 0 < u.width) :
    ∀ (ds : List (Nat × Nat)) (n : Nat),
      ds.foldl (neighborStep u.cells u.height u.width r c) (some n) =
        some (ds.foldl (countStep u.cells u.height u.width r c) n) := by
  intro ds
  induction ds with
  | nil => intro n; rfl
  | cons d rest ih =>
    intro n
    obtain ⟨dr, dc⟩ := d
    rw [List.foldl_cons, List.foldl_cons]
    by_cases hd : dr = 0 ∧ dc = 0
    · simp only [neighborStep, countStep, if_pos hd]
      exact ih n
    · have hb1 : (r + dr) % u.height < u.height := Nat.mod_lt _ hh
      have hb2 : (c + dc) % u.width < u.width := Nat.mod_lt _ hw
      have hcell := getCellM_eq_some hWF hb1 hb2
      simp only [neighborStep, countStep, if_neg hd, hcell, aliveNat]
      cases cellD u.cells ((r + dr) % u.height) ((c + dc) % u.width) with
      | Alive i => exact ih (n + 1)
      | Dead i => simpa using ih n

theorem live_neighbor_count_eq {u : Universe} (hWF : WF u)
    (hh : 0 < u.height) (hw : 0 < u.width) (r c : Nat) :
    live_neighbor_count u r c = some (neighborCountD u r c) := by
  simp only [live_neighbor_count, neighborCountD]
  exact foldl_neighbor_lift u hWF r c hh hw _ 0

theorem nextRowFn_length (u : Universe) (row : Nat) :
    (nextRowFn u row).length = u.width := by
  simp [nextRowFn]

theorem nextRowFn_get (u : Universe) (row : Nat) {j : Nat} (hj : j < u.width) :
    (nextRowFn u row)[j]? =
      some (nextCell (cellD u.cells row j) (neighborCountD u row j)) := by
  simp [nextRowFn, List.getElem?_map, List.getElem?_range, hj]

theorem tickRowLoop_ok (u : Universe) (hWF : WF u) (row : Nat) (hrow : row < u.height) :
    ∀ (fuel col : Nat) (acc : List Cell), col + fuel = u.width →
      acc.length = u.width →
      (∀ j, j < col → acc[j]? = (nextRowFn u row)[j]?) →
      tickRowLoop u row col fuel acc = some (nextRowFn u row) := by
  have hh : 0 < u.height := by omega
  intro fuel
  induction fuel with
  | zero =>
    intro col acc hcol hlen hpre
    have hacc : acc = nextRowFn u row := by
      apply List.ext_getElem?
      intro j
      by_cases hj : j < u.width
      · exact hpre j (by omega)
      · rw [List.getElem?_eq_none (by omega),
          List.getElem?_eq_none (by rw [nextRowFn_length]; omega)]
    rw [tickRowLoop, hacc]
  | succ fuel ih =>
    intro col acc hcol hlen hpre
    have hcw : col < u.width := by omega
    have hw : 0 < u.width := by omega
    have hcell := getCellM_eq_some hWF hrow hcw
    have hn := live_neighbor_count_eq hWF hh hw row col
    rw [tickRowLoop, hcell, hn]
    apply ih
    · omega
    · rw [List.length_set]; exact hlen
    · intro j hj
      rcases Nat.lt_or_ge j col with hlt | hge
      · rw [List.getElem?_set_ne (by omega)]
        exact hpre j hlt
      · have hj' : j = col := by omega
        subst hj'
        rw [List.getElem?_set_eq_of_lt _ (by omega), nextRowFn_get u row hcw]

theorem tickRows_ok (u : Universe) (hWF : WF u) :
    ∀ (fuel row : Nat) (next : List (List Cell)), row + fuel = u.height →
      next.length = u.height →
      (∀ j, j < row → next[j]? = some (nextRowFn u j)) →
      (∀ j, row ≤ j → next[j]? = u.cells[j]?) →
      tickRows u row fuel next = some ((List.range u.height).map (nextRowFn u)) := by
  intro fuel
  induction fuel with
  | zero =>
    intro row next hrow hlen hpre _
    have hnext : next = (List.range u.height).map (nextRowFn u) := by
      apply List.ext_getElem?
      intro j
      by_cases hj : j < u.height
      · rw [hpre j (by omega)]
        simp [List.getElem?_map, List.getElem?_range, hj]
      · rw [List.getElem?_eq_none (by omega), List.getElem?_eq_none (by simp; omega)]
    rw [tickRows, hnext]
  | succ fuel ih =>
    intro row next hrow hlen hpre hsuf
    have hrh : row < u.height := by omega
    have hrl : row < u.cells.length := by rw [hWF.1]; omega
    have hcur : next[row]? = some u.cells[row] := by
      rw [hsuf row (Nat.le_refl row)]
      exact List.getElem?_eq_getElem hrl
    have hlenrow : u.cells[row].length = u.width :=
      hWF.2 u.cells[row] (List.getElem_mem hrl)
    have hloop := tickRowLoop_ok u hWF row hrh u.width 0 u.cells[row]
      (by omega) hlenrow (fun j hj => absurd hj (by omega))
    rw [tickRows, hcur]
    show (match tickRowLoop u row 0 u.width u.cells[row] with
      | some newRow => tickRows u (row + 1) fuel (next.set row newRow)
      | none => none) = _
    rw [hloop]
    apply ih
    · omega
    · rw [List.length_set]; exact hlen
    · intro j hj
      rcases Nat.lt_or_ge j row with hlt | hge
      · rw [List.getElem?_set_ne (by omega)]
        exact hpre j hlt
      · have hj' : j = row := by omega
        subst hj'
        rw [List.getElem?_set_eq_of_lt _ (by omega)]
    · intro j hj
      rw [List.getElem?_set_ne (by omega)]
      exact hsuf j (by omega)

/-- On a well-formed grid, `tick` panics nowhere and computes `tickPure`. -/
theorem tick_eq {u : Universe} (hWF : WF u) : tick u = some (tickPure u) := by
  rw [tick, tickRows_ok u hWF u.height 0 u.cells (by omega) hWF.1
    (fun j hj => absurd hj (by omega)) (fun j _ => rfl)]
  rfl

theorem WF_tickPure (u : Universe) : WF (tickPure u) := by
  constructor
  · simp [tickPure]
  · intro row hrow
    simp only [tickPure, List.mem_map, List.mem_range] at hrow
    obtain ⟨j, _, hj⟩ := hrow
    rw [← hj]
    exact nextRowFn_length u j

theorem getCellM_tickPure (u : Universe) {r c : Nat}
    (hr : r < u.height) (hc : c < u.width) :
    getCellM (tickPure u).cells r c =
      some (nextCell (cellD u.cells r c) (neighborCountD u r c)) := by
  unfold getCellM
  have h1 : (tickPure u).cells[r]? = some (nextRowFn u r) := by
    simp [tickPure, List.getElem?_map, List.getElem?_range, hr]
  rw [h1]
  exact nextRowFn_get u r hc

/-! ## Spec-side definitions

These follow the wording of the specification, to be compared with the
definitions translated from the source. -/

/-- The transition rule exactly as the spec states it: an `Alive` cell with
fewer than 2 live neighbors dies at age 0; with 2 or 3 it survives, age
incremented saturating; with more than 3 it dies at age 0; a `Dead` cell with
exactly 3 live neighbors is born at age 0; any other `Dead` cell stays `Dead`
with age incremented saturating. -/
def specRuleCell (cell : Cell) (n : Nat) : Cell :=
  match cell with
  | Cell.Alive i =>
    if n < 2 then Cell.Dead 0
    else if n = 2 ∨ n = 3 then Cell.Alive (satAdd1 i)
    else Cell.Dead 0
  | Cell.Dead i =>
    if n = 3 then Cell.Alive 0 else Cell.Dead (satAdd1 i)

/-- The spec-side neighbor count: the number of `Alive` cells among the 8
toroidally-wrapped Moore neighbor positions `(row ± 1 mod height,
col ± 1 mod width)`, the cell itself excluded. -/
def specNeighborCount (u : Universe) (r c : Nat) : Nat :=
  aliveNat u.cells ((r + (u.height - 1)) % u.height) ((c + (u.width - 1)) % u.width) +
  aliveNat u.cells ((r + (u.height - 1)) % u.height) c +
  aliveNat u.cells ((r + (u.height - 1)) % u.height) ((c + 1) % u.width) +
  aliveNat u.cells r ((c + (u.width - 1)) % u.width) +
  aliveNat u.cells r ((c + 1) % u.width) +
  aliveNat u.cells ((r + 1) % u.height) ((c + (u.width - 1)) % u.width) +
  aliveNat u.cells ((r + 1) % u.height) c +
  aliveNat u.cells ((r + 1) % u.height) ((c + 1) % u.width)

/-! ## The neighbor count on grids with `height, width ≥ 2` -/

theorem nextCell_eq_spec (cell : Cell) (n : Nat) :
    nextCell cell n = specRuleCell cell n := by
  cases cell with
  | Alive i =>
    simp only [nextCell, specRuleCell]
    split_ifs <;> first | rfl | omega
  | Dead i => rfl

theorem neighborCountD_eq (u : Universe) (hh : 2 ≤ u.height) (hw : 2 ≤ u.width)
    (r c : Nat) :
    neighborCountD u r c =
      aliveNat u.cells ((r + (u.height - 1)) % u.height) ((c + (u.width - 1)) % u.width) +
      aliveNat u.cells ((r + (u.height - 1)) % u.height) ((c + 0) % u.width) +
      aliveNat u.cells ((r + (u.height - 1)) % u.height) ((c + 1) % u.width) +
      aliveNat u.cells ((r + 0) % u.height) ((c + (u.width - 1)) % u.width) +
      aliveNat u.cells ((r + 0) % u.height) ((c + 1) % u.width) +
      aliveNat u.cells ((r + 1) % u.height) ((c + (u.width - 1)) % u.width) +
      aliveNat u.cells ((r + 1) % u.height) ((c + 0) % u.width) +
      aliveNat u.cells ((r + 1) % u.height) ((c + 1) % u.width) := by
  have e1 : (u.height - 1 = 0) = False := eq_false (by omega)
  have e2 : (u.width - 1 = 0) = False := eq_false (by omega)
  have e3 : ((1 : Nat) = 0) = False := eq_false (by omega)
  have e4 : ((0 : Nat) = 0) = True := eq_true rfl
  simp only [neighborCountD, deltaPairs, List.flatMap_cons, List.map_cons,
    List.map_nil, List.flatMap_nil, List.append_nil, List.cons_append,
    List.nil_append, List.foldl_cons, List.foldl_nil, countStep, e1, e2, e3,
    e4, and_false, false_and, and_true, true_and, and_self, if_true, if_false,
    ite_true, ite_false]
  omega

theorem wrap_up {h r : Nat} (hr : r < h) :
    (r + (h - 1)) % h = if r = 0 then h - 1 else r - 1 := by
  by_cases hr0 : r = 0
  · subst hr0
    rw [if_pos rfl, Nat.zero_add, Nat.mod_eq_of_lt (by omega)]
  · rw [if_neg hr0, show r + (h - 1) = h + (r - 1) by omega, Nat.add_mod_left,
      Nat.mod_eq_of_lt (by omega)]

theorem wrap_down {h r : Nat} (hr : r < h) :
    (r + 1) % h = if r = h - 1 then 0 else r + 1 := by
  by_cases hr1 : r = h - 1
  · rw [if_pos hr1, show r + 1 = h by omega, Nat.mod_self]
  · rw [if_neg hr1, Nat.mod_eq_of_lt (by omega)]

theorem wrap_mid {h r : Nat} (hr : r < h) : (r + 0) % h = r := by
  rw [Nat.add_zero, Nat.mod_eq_of_lt hr]

theorem aliveNat_eq_aliveB (cells : List (List Cell)) (r c : Nat) :
    aliveNat cells r c = if aliveB cells r c = true then 1 else 0 := by
  unfold aliveNat aliveB
  rcases getCellM cells r c with _ | cell
  · rfl
  · cases cell <;> rfl

theorem aliveNat_char {cells : List (List Cell)} {r c : Nat} {P : Prop}
    [Decidable P] (h : aliveB cells r c = true ↔ P) :
    aliveNat cells r c = if P then 1 else 0 := by
  rw [aliveNat_eq_aliveB]
  by_cases hp : P
  · rw [if_pos hp, if_pos (h.mpr hp)]
  · rw [if_neg hp, if_neg (fun hb => hp (h.mp hb))]

theorem isAliveCell_nextCell (cell : Cell) (n : Nat) :
    isAliveCell (nextCell cell n) = true ↔
      (n = 3 ∨ (isAliveCell cell = true ∧ n = 2)) := by
  cases cell <;> simp only [nextCell] <;> split_ifs <;>
    simp [isAliveCell] <;> omega

theorem aliveB_eq_isAliveCell {u : Universe} (hWF : WF u) {r c : Nat}
    (hr : r < u.height) (hc : c < u.width) :
    aliveB u.cells r c = isAliveCell (cellD u.cells r c) := by
  rw [aliveB, getCellM_eq_some hWF hr hc]

theorem aliveB_tickPure {u : Universe} (hWF : WF u) {r c : Nat}
    (hr : r < u.height) (hc : c < u.width) :
    (aliveB (tickPure u).cells r c = true ↔
      (neighborCountD u r c = 3 ∨
        (aliveB u.cells r c = true ∧ neighborCountD u r c = 2))) := by
  rw [aliveB, getCellM_tickPure u hr hc, aliveB_eq_isAliveCell hWF hr hc]
  exact isAliveCell_nextCell _ _

/-! ## Claim C1 -/

/-- On a grid with `height, width ≥ 2` the value the tick loop computes for a
cell's neighbor count coincides with the count of `Alive` cells among the 8
toroidal Moore neighbor positions. -/
theorem neighborCountD_eq_specCount (u : Universe) (hh : 2 ≤ u.height)
    (hw : 2 ≤ u.width) {r c : Nat} (hr : r < u.height) (hc : c < u.width) :
    neighborCountD u r c = specNeighborCount u r c := by
  rw [neighborCountD_eq u hh hw r c]
  unfold specNeighborCount
  rw [wrap_mid hr, wrap_mid hc]

/-- C1 (amended: for grids with `width ≥ 2` and `height ≥ 2`): one `tick`
computes every cell's next value purely from the current generation, by the
spec's five-case rule applied to the cell's current value and the number of
`Alive` cells among its 8 toroidally-wrapped Moore neighbor positions:
`Alive` with fewer than 2 live neighbors dies at age 0, `Alive` with 2 or 3
survives with age incremented saturating at the representable maximum,
`Alive` with more than 3 dies at age 0, `Dead` with exactly 3 is born at
age 0, and any other `Dead` cell stays `Dead` with age incremented
saturating.  (When `width = 1` or `height = 1` the code's neighbor count
differs from the Moore count and the transition can differ, as the
counterexample shows.) -/
theorem claim1_tick_rule (u : Universe) (hWF : WF u)
    (hh : 2 ≤ u.height) (hw : 2 ≤ u.width) :
    ∃ u', tick u = some u' ∧
      ∀ r c, r < u.height → c < u.width →
        getCellM u'.cells r c =
          some (specRuleCell (cellD u.cells r c) (specNeighborCount u r c)) := by
  refine ⟨tickPure u, tick_eq hWF, fun r c hr hc => ?_⟩
  rw [getCellM_tickPure u hr hc, nextCell_eq_spec,
    neighborCountD_eq_specCount u hh hw hr hc]

/-- Witness for C1 at a concrete 2×2 grid. -/
theorem claim1_witness :
    ∃ u', tick (Universe.mk 2 2 [[Cell.Alive 0, Cell.Dead 0], [Cell.Dead 7, Cell.Alive 5]]) = some u' ∧
      ∀ r c, r < (Universe.mk 2 2 [[Cell.Alive 0, Cell.Dead 0], [Cell.Dead 7, Cell.Alive 5]]).height →
        c < (Universe.mk 2 2 [[Cell.Alive 0, Cell.Dead 0], [Cell.Dead 7, Cell.Alive 5]]).width →
        getCellM u'.cells r c =
          some (specRuleCell
            (cellD (Universe.mk 2 2 [[Cell.Alive 0, Cell.Dead 0], [Cell.Dead 7, Cell.Alive 5]]).cells r c)
            (specNeighborCount (Universe.mk 2 2 [[Cell.Alive 0, Cell.Dead 0], [Cell.Dead 7, Cell.Alive 5]]) r c)) :=
  claim1_tick_rule _ (by decide) (by decide) (by decide)

/-- C1 counterexample: on the 1-row grid `[[Alive 0, Dead 0]]` (width 2,
height 1, allowed by the claim's "for every grid"), cell `(0,0)` has 2 live
cells among its 8 toroidal Moore neighbor positions, so the claimed rule
predicts survival as `Alive 1`; the code counts 1 and `tick` produces
`Dead 0`. -/
theorem claim1_counterexample :
    (tick (Universe.mk 2 1 [[Cell.Alive 0, Cell.Dead 0]])).map
        (fun u' => getCellM u'.cells 0 0) = some (some (Cell.Dead 0)) ∧
    specNeighborCount (Universe.mk 2 1 [[Cell.Alive 0, Cell.Dead 0]]) 0 0 = 2 ∧
    specRuleCell (cellD [[Cell.Alive 0, Cell.Dead 0]] 0 0)
        (specNeighborCount (Universe.mk 2 1 [[Cell.Alive 0, Cell.Dead 0]]) 0 0) =
      Cell.Alive 1 ∧
    some (Cell.Dead 0) ≠ some (Cell.Alive 1) := by
  exact ⟨by decide, by decide, by decide, by decide⟩

/-! ## Claim C2 -/

/-- C2 (amended: for grids with `width ≥ 2` and `height ≥ 2`):
`live_neighbor_count` at any in-range cell returns exactly the number of
`Alive` cells among the 8 toroidally-wrapped Moore neighbor positions
`(row ± 1 mod height, col ± 1 mod width)`, the cell itself excluded; in
particular a live cell at `(0,0)` contributes to the counts of
`(height-1, width-1)`, `(height-1, 0)` and `(0, width-1)`. -/
theorem claim2_neighbor_count (u : Universe) (hWF : WF u)
    (hh : 2 ≤ u.height) (hw : 2 ≤ u.width) (r c : Nat)
    (hr : r < u.height) (hc : c < u.width) :
    live_neighbor_count u r c = some (specNeighborCount u r c) := by
  rw [live_neighbor_count_eq hWF (by omega) (by omega) r c,
    neighborCountD_eq u hh hw r c]
  unfold specNeighborCount
  rw [wrap_mid hr, wrap_mid hc]

/-- Witness for C2 at a concrete 2×3 grid. -/
theorem claim2_witness :
    live_neighbor_count
        (Universe.mk 3 2 [[Cell.Alive 0, Cell.Dead 3, Cell.Dead 0], [Cell.Dead 0, Cell.Alive 1, Cell.Alive 2]]) 0 1 =
      some (specNeighborCount
        (Universe.mk 3 2 [[Cell.Alive 0, Cell.Dead 3, Cell.Dead 0], [Cell.Dead 0, Cell.Alive 1, Cell.Alive 2]]) 0 1) :=
  claim2_neighbor_count _ (by decide) (by decide) (by decide) 0 1 (by decide) (by decide)

/-- C2 counterexample: on the 1×1 all-alive grid (which satisfies the claim's
`width ≥ 1`, `height ≥ 1` hypothesis, at the in-range cell `(0,0)`), the
code's count is 5 while the count over the 8 Moore neighbor positions is 8. -/
theorem claim2_counterexample :
    live_neighbor_count (Universe.mk 1 1 [[Cell.Alive 0]]) 0 0 ≠
      some (specNeighborCount (Universe.mk 1 1 [[Cell.Alive 0]]) 0 0) := by
  decide

/-! ## Claim C3: the blinker -/

/-- The live set of the blinker `(1,0),(1,1),(1,2)` (pattern `(x,y)` offsets,
`x` the column) placed with the top-left of its 3×3 box at `(r0, c0)`:
column `c0 + 1`, rows `r0 .. r0 + 2`. -/
def vertBlinker (r0 c0 r c : Nat) : Prop :=
  c = c0 + 1 ∧ r0 ≤ r ∧ r ≤ r0 + 2

/-- The perpendicular orientation: row `r0 + 1`, columns `c0 .. c0 + 2`. -/
def horizBlinker (r0 c0 r c : Nat) : Prop :=
  r = r0 + 1 ∧ c0 ≤ c ∧ c ≤ c0 + 2

instance vertBlinkerDec (r0 c0 r c : Nat) : Decidable (vertBlinker r0 c0 r c) := by
  unfold vertBlinker; infer_instance

instance horizBlinkerDec (r0 c0 r c : Nat) : Decidable (horizBlinker r0 c0 r c) := by
  unfold horizBlinker; infer_instance

/-! Interior placement makes the wrapped neighbor conditions equivalent to
plain arithmetic conditions, uniformly in the position. -/

theorem pt_up_iff {h r b : Nat} (hr : r < h) (hb1 : 2 ≤ b) (hb2 : b + 2 < h) :
    ((r + (h - 1)) % h = b) ↔ (r = b + 1) := by
  rw [wrap_up hr]
  by_cases hr0 : r = 0
  · rw [if_pos hr0]; omega
  · rw [if_neg hr0]; omega

theorem pt_down_iff {h r b : Nat} (hr : r < h) (hb1 : 1 ≤ b) (hb2 : b + 2 < h) :
    ((r + 1) % h = b) ↔ (r + 1 = b) := by
  rw [wrap_down hr]
  by_cases hrh : r = h - 1
  · rw [if_pos hrh]; omega
  · rw [if_neg hrh]

theorem int_up_iff {h r a : Nat} (hr : r < h) (ha1 : 1 ≤ a) (ha2 : a + 3 < h) :
    (a ≤ (r + (h - 1)) % h ∧ (r + (h - 1)) % h ≤ a + 2) ↔ (a + 1 ≤ r ∧ r ≤ a + 3) := by
  rw [wrap_up hr]
  by_cases hr0 : r = 0
  · rw [if_pos hr0]; omega
  · rw [if_neg hr0]; omega

theorem int_down_iff {h r a : Nat} (hr : r < h) (ha1 : 1 ≤ a) (ha2 : a + 3 < h) :
    (a ≤ (r + 1) % h ∧ (r + 1) % h ≤ a + 2) ↔ (a ≤ r + 1 ∧ r + 1 ≤ a + 2) := by
  rw [wrap_down hr]
  by_cases hrh : r = h - 1
  · rw [if_pos hrh]; omega
  · rw [if_neg hrh]

set_option maxHeartbeats 1000000 in
theorem blinker_step_vh (u : Universe) (r0 c0 : Nat) (hWF : WF u)
    (h1 : 1 ≤ r0) (h2 : r0 + 3 < u.height) (h3 : 1 ≤ c0) (h4 : c0 + 3 < u.width)
    (hset : ∀ r, r < u.height → ∀ c, c < u.width →
      (aliveB u.cells r c = true ↔ vertBlinker r0 c0 r c)) :
    ∀ r, r < u.height → ∀ c, c < u.width →
      (aliveB (tickPure u).cells r c = true ↔ horizBlinker r0 c0 r c) := by
  intro r hr c hc
  rw [aliveB_tickPure hWF hr hc, hset r hr c hc]
  have hAN : ∀ x y, x < u.height → y < u.width →
      aliveNat u.cells x y = if vertBlinker r0 c0 x y then 1 else 0 :=
    fun x y hx hy => aliveNat_char (hset x hx y hy)
  have hcount := neighborCountD_eq u (by omega) (by omega) r c
  rw [hAN _ _ (Nat.mod_lt _ (by omega)) (Nat.mod_lt _ (by omega)),
    hAN _ _ (Nat.mod_lt _ (by omega)) (Nat.mod_lt _ (by omega)),
    hAN _ _ (Nat.mod_lt _ (by omega)) (Nat.mod_lt _ (by omega)),
    hAN _ _ (Nat.mod_lt _ (by omega)) (Nat.mod_lt _ (by omega)),
    hAN _ _ (Nat.mod_lt _ (by omega)) (Nat.mod_lt _ (by omega)),
    hAN _ _ (Nat.mod_lt _ (by omega)) (Nat.mod_lt _ (by omega)),
    hAN _ _ (Nat.mod_lt _ (by omega)) (Nat.mod_lt _ (by omega)),
    hAN _ _ (Nat.mod_lt _ (by omega)) (Nat.mod_lt _ (by omega)),
    wrap_mid hr, wrap_mid hc] at hcount
  have i1 : vertBlinker r0 c0 ((r + (u.height - 1)) % u.height) ((c + (u.width - 1)) % u.width) ↔
      (c = c0 + 1 + 1 ∧ (r0 + 1 ≤ r ∧ r ≤ r0 + 3)) :=
    and_congr (pt_up_iff hc (by omega) (by omega)) (int_up_iff hr (by omega) (by omega))
  have i2 : vertBlinker r0 c0 ((r + (u.height - 1)) % u.height) c ↔
      (c = c0 + 1 ∧ (r0 + 1 ≤ r ∧ r ≤ r0 + 3)) :=
    and_congr Iff.rfl (int_up_iff hr (by omega) (by omega))
  have i3 : vertBlinker r0 c0 ((r + (u.height - 1)) % u.height) ((c + 1) % u.width) ↔
      (c + 1 = c0 + 1 ∧ (r0 + 1 ≤ r ∧ r ≤ r0 + 3)) :=
    and_congr (pt_down_iff hc (by omega) (by omega)) (int_up_iff hr (by omega) (by omega))
  have i4 : vertBlinker r0 c0 r ((c + (u.width - 1)) % u.width) ↔
      (c = c0 + 1 + 1 ∧ (r0 ≤ r ∧ r ≤ r0 + 2)) :=
    and_congr (pt_up_iff hc (by omega) (by omega)) Iff.rfl
  have i5 : vertBlinker r0 c0 r ((c + 1) % u.width) ↔
      (c + 1 = c0 + 1 ∧ (r0 ≤ r ∧ r ≤ r0 + 2)) :=
    and_congr (pt_down_iff hc (by omega) (by omega)) Iff.rfl
  have i6 : vertBlinker r0 c0 ((r + 1) % u.height) ((c + (u.width - 1)) % u.width) ↔
      (c = c0 + 1 + 1 ∧ (r0 ≤ r + 1 ∧ r + 1 ≤ r0 + 2)) :=
    and_congr (pt_up_iff hc (by omega) (by omega)) (int_down_iff hr (by omega) (by omega))
  have i7 : vertBlinker r0 c0 ((r + 1) % u.height) c ↔
      (c = c0 + 1 ∧ (r0 ≤ r + 1 ∧ r + 1 ≤ r0 + 2)) :=
    and_congr Iff.rfl (int_down_iff hr (by omega) (by omega))
  have i8 : vertBlinker r0 c0 ((r + 1) % u.height) ((c + 1) % u.width) ↔
      (c + 1 = c0 + 1 ∧ (r0 ≤ r + 1 ∧ r + 1 ≤ r0 + 2)) :=
    and_congr (pt_down_iff hc (by omega) (by omega)) (int_down_iff hr (by omega) (by omega))
  simp only [i1, i2, i3, i4, i5, i6, i7, i8] at hcount
  rw [hcount]
  simp only [vertBlinker, horizBlinker]
  split_ifs <;> omega

set_option maxHeartbeats 1000000 in
theorem blinker_step_hv (u : Universe) (r0 c0 : Nat) (hWF : WF u)
    (h1 : 1 ≤ r0) (h2 : r0 + 3 < u.height) (h3 : 1 ≤ c0) (h4 : c0 + 3 < u.width)
    (hset : ∀ r, r < u.height → ∀ c, c < u.width →
      (aliveB u.cells r c = true ↔ horizBlinker r0 c0 r c)) :
    ∀ r, r < u.height → ∀ c, c < u.width →
      (aliveB (tickPure u).cells r c = true ↔ vertBlinker r0 c0 r c) := by
  intro r hr c hc
  rw [aliveB_tickPure hWF hr hc, hset r hr c hc]
  have hAN : ∀ x y, x < u.height → y < u.width →
      aliveNat u.cells x y = if horizBlinker r0 c0 x y then 1 else 0 :=
    fun x y hx hy => aliveNat_char (hset x hx y hy)
  have hcount := neighborCountD_eq u (by omega) (by omega) r c
  rw [hAN _ _ (Nat.mod_lt _ (by omega)) (Nat.mod_lt _ (by omega)),
    hAN _ _ (Nat.mod_lt _ (by omega)) (Nat.mod_lt _ (by omega)),
    hAN _ _ (Nat.mod_lt _ (by omega)) (Nat.mod_lt _ (by omega)),
    hAN _ _ (Nat.mod_lt _ (by omega)) (Nat.mod_lt _ (by omega)),
    hAN _ _ (Nat.mod_lt _ (by omega)) (Nat.mod_lt _ (by omega)),
    hAN _ _ (Nat.mod_lt _ (by omega)) (Nat.mod_lt _ (by omega)),
    hAN _ _ (Nat.mod_lt _ (by omega)) (Nat.mod_lt _ (by omega)),
    hAN _ _ (Nat.mod_lt _ (by omega)) (Nat.mod_lt _ (by omega)),
    wrap_mid hr, wrap_mid hc] at hcount
  have i1 : horizBlinker r0 c0 ((r + (u.height - 1)) % u.height) ((c + (u.width - 1)) % u.width) ↔
      (r = r0 + 1 + 1 ∧ (c0 + 1 ≤ c ∧ c ≤ c0 + 3)) :=
    and_congr (pt_up_iff hr (by omega) (by omega)) (int_up_iff hc (by omega) (by omega))
  have i2 : horizBlinker r0 c0 ((r + (u.height - 1)) % u.height) c ↔
      (r = r0 + 1 + 1 ∧ (c0 ≤ c ∧ c ≤ c0 + 2)) :=
    and_congr (pt_up_iff hr (by omega) (by omega)) Iff.rfl
  have i3 : horizBlinker r0 c0 ((r + (u.height - 1)) % u.height) ((c + 1) % u.width) ↔
      (r = r0 + 1 + 1 ∧ (c0 ≤ c + 1 ∧ c + 1 ≤ c0 + 2)) :=
    and_congr (pt_up_iff hr (by omega) (by omega)) (int_down_iff hc (by omega) (by omega))
  have i4 : horizBlinker r0 c0 r ((c + (u.width - 1)) % u.width) ↔
      (r = r0 + 1 ∧ (c0 + 1 ≤ c ∧ c ≤ c0 + 3)) :=
    and_congr Iff.rfl (int_up_iff hc (by omega) (by omega))
  have i5 : horizBlinker r0 c0 r ((c + 1) % u.width) ↔
      (r = r0 + 1 ∧ (c0 ≤ c + 1 ∧ c + 1 ≤ c0 + 2)) :=
    and_congr Iff.rfl (int_down_iff hc (by omega) (by omega))
  have i6 : horizBlinker r0 c0 ((r + 1) % u.height) ((c + (u.width - 1)) % u.width) ↔
      (r + 1 = r0 + 1 ∧ (c0 + 1 ≤ c ∧ c ≤ c0 + 3)) :=
    and_congr (pt_down_iff hr (by omega) (by omega)) (int_up_iff hc (by omega) (by omega))
  have i7 : horizBlinker r0 c0 ((r + 1) % u.height) c ↔
      (r + 1 = r0 + 1 ∧ (c0 ≤ c ∧ c ≤ c0 + 2)) :=
    and_congr (pt_down_iff hr (by omega) (by omega)) Iff.rfl
  have i8 : horizBlinker r0 c0 ((r + 1) % u.height) ((c + 1) % u.width) ↔
      (r + 1 = r0 + 1 ∧ (c0 ≤ c + 1 ∧ c + 1 ≤ c0 + 2)) :=
    and_congr (pt_down_iff hr (by omega) (by omega)) (int_down_iff hc (by omega) (by omega))
  simp only [i1, i2, i3, i4, i5, i6, i7, i8] at hcount
  rw [hcount]
  simp only [vertBlinker, horizBlinker]
  split_ifs <;> omega

/-- C3: on any well-formed grid whose only `Alive` cells are the blinker
`(1,0),(1,1),(1,2)` of a 3×3 local box placed away from the edges (which
requires `width, height ≥ 5`), one `tick` yields exactly the perpendicular
orientation as the set of `Alive` cells, and two `tick`s yield exactly the
original set of `Alive` cells. -/
theorem claim3_blinker (u : Universe) (r0 c0 : Nat) (hWF : WF u)
    (h1 : 1 ≤ r0) (h2 : r0 + 3 < u.height) (h3 : 1 ≤ c0) (h4 : c0 + 3 < u.width)
    (hset : ∀ r, r < u.height → ∀ c, c < u.width →
      (aliveB u.cells r c = true ↔ vertBlinker r0 c0 r c)) :
    ∃ u1 u2, tick u = some u1 ∧ tick u1 = some u2 ∧
      (∀ r, r < u.height → ∀ c, c < u.width →
        (aliveB u1.cells r c = true ↔ horizBlinker r0 c0 r c)) ∧
      (∀ r, r < u.height → ∀ c, c < u.width →
        (aliveB u2.cells r c = true ↔ vertBlinker r0 c0 r c)) := by
  have hstep1 := blinker_step_vh u r0 c0 hWF h1 h2 h3 h4 hset
  have hstep2 := blinker_step_hv (tickPure u) r0 c0 (WF_tickPure u) h1 h2 h3 h4 hstep1
  exact ⟨tickPure u, tickPure (tickPure u), tick_eq hWF, tick_eq (WF_tickPure u),
    hstep1, hstep2⟩

/-- Witness for C3: a concrete 5×5 grid with the blinker box at `(1,1)`. -/
theorem claim3_witness :
    ∃ u1 u2,
      tick (Universe.mk 5 5
        [[Cell.Dead 0, Cell.Dead 0, Cell.Dead 0, Cell.Dead 0, Cell.Dead 0],
         [Cell.Dead 0, Cell.Dead 0, Cell.Alive 0, Cell.Dead 0, Cell.Dead 0],
         [Cell.Dead 0, Cell.Dead 0, Cell.Alive 0, Cell.Dead 0, Cell.Dead 0],
         [Cell.Dead 0, Cell.Dead 0, Cell.Alive 0, Cell.Dead 0, Cell.Dead 0],
         [Cell.Dead 0, Cell.Dead 0, Cell.Dead 0, Cell.Dead 0, Cell.Dead 0]]) = some u1 ∧
      tick u1 = some u2 ∧
      (∀ r, r < 5 → ∀ c, c < 5 → (aliveB u1.cells r c = true ↔ horizBlinker 1 1 r c)) ∧
      (∀ r, r < 5 → ∀ c, c < 5 → (aliveB u2.cells r c = true ↔ vertBlinker 1 1 r c)) :=
  claim3_blinker _ 1 1 (by decide) (by decide) (by decide) (by decide) (by decide)
    (by decide)

/-! ## Claim C10 -/

/-- C10: on a rectangular `height × width` grid with `width, height ≥ 1`,
`tick` is total — every computed index, including `(row + (height-1)) % height`
and `(row + 1) % height` and the column analogues, is in bounds, so no cell
access fails — the subtractions `height - 1` and `width - 1` do not
underflow, and `tick` preserves width, height and rectangularity. -/
theorem claim10_tick_total (u : Universe) (hWF : WF u)
    (hh : 1 ≤ u.height) (hw : 1 ≤ u.width) :
    (∃ u', tick u = some u' ∧ u'.width = u.width ∧ u'.height = u.height ∧ WF u')
    ∧ (∀ r, r < u.height → ∀ d ∈ [u.height - 1, 0, 1], (r + d) % u.height < u.height)
    ∧ (∀ c, c < u.width → ∀ d ∈ [u.width - 1, 0, 1], (c + d) % u.width < u.width)
    ∧ (u.height - 1) + 1 = u.height ∧ (u.width - 1) + 1 = u.width := by
  refine ⟨⟨tickPure u, tick_eq hWF, rfl, rfl, WF_tickPure u⟩, ?_, ?_, by omega, by omega⟩
  · intro r _ d _
    exact Nat.mod_lt _ (by omega)
  · intro c _ d _
    exact Nat.mod_lt _ (by omega)

/-- Witness for C10 at a concrete 1×2 grid. -/
theorem claim10_witness :
    (∃ u', tick (Universe.mk 2 1 [[Cell.Dead 0, Cell.Alive 3]]) = some u' ∧
      u'.width = (Universe.mk 2 1 [[Cell.Dead 0, Cell.Alive 3]]).width ∧
      u'.height = (Universe.mk 2 1 [[Cell.Dead 0, Cell.Alive 3]]).height ∧ WF u')
    ∧ (∀ r, r < (Universe.mk 2 1 [[Cell.Dead 0, Cell.Alive 3]]).height →
        ∀ d ∈ [(Universe.mk 2 1 [[Cell.Dead 0, Cell.Alive 3]]).height - 1, 0, 1],
          (r + d) % (Universe.mk 2 1 [[Cell.Dead 0, Cell.Alive 3]]).height <
            (Universe.mk 2 1 [[Cell.Dead 0, Cell.Alive 3]]).height)
    ∧ (∀ c, c < (Universe.mk 2 1 [[Cell.Dead 0, Cell.Alive 3]]).width →
        ∀ d ∈ [(Universe.mk 2 1 [[Cell.Dead 0, Cell.Alive 3]]).width - 1, 0, 1],
          (c + d) % (Universe.mk 2 1 [[Cell.Dead 0, Cell.Alive 3]]).width <
            (Universe.mk 2 1 [[Cell.Dead 0, Cell.Alive 3]]).width)
    ∧ ((Universe.mk 2 1 [[Cell.Dead 0, Cell.Alive 3]]).height - 1) + 1 =
        (Universe.mk 2 1 [[Cell.Dead 0, Cell.Alive 3]]).height
    ∧ ((Universe.mk 2 1 [[Cell.Dead 0, Cell.Alive 3]]).width - 1) + 1 =
        (Universe.mk 2 1 [[Cell.Dead 0, Cell.Alive 3]]).width :=
  claim10_tick_total _ (by decide) (by decide) (by decide)

/-! ## Claim C4 -/

/-- C4: the `Insert(r, c)` action (`set_cell`) with in-range indices sets
exactly the cell at `(r, c)` to `Alive` with age 0 and leaves every other
cell unchanged; with out-of-range indices it fails with a bounds error (the
modelled indexing panic) rather than clamping, and no cell is modified. -/
theorem claim4_insert (w h : Nat) (cells : List (List Cell)) (r c : Nat)
    (hlen : cells.length = h) (hrow : ∀ row ∈ cells, row.length = w) :
    (r < h ∧ c < w →
      ∃ cells2, insertCell cells r c = some cells2 ∧
        cells2.length = h ∧ (∀ row ∈ cells2, row.length = w) ∧
        getCellM cells2 r c = some (Cell.Alive 0) ∧
        (∀ r2 c2, r2 < h → c2 < w → ¬(r2 = r ∧ c2 = c) →
          getCellM cells2 r2 c2 = getCellM cells r2 c2)) ∧
    (¬(r < h ∧ c < w) → insertCell cells r c = none) := by
  constructor
  · rintro ⟨hr, hc⟩
    have hr2 : r < cells.length := by omega
    have hrowlen : cells[r].length = w := hrow _ (List.getElem_mem hr2)
    have hc2 : c < cells[r].length := by omega
    refine ⟨cells.set r (cells[r].set c (Cell.Alive 0)), ?_, ?_, ?_, ?_, ?_⟩
    · unfold insertCell
      rw [List.getElem?_eq_getElem hr2]
      show (if c < cells[r].length then
        some (cells.set r (cells[r].set c (Cell.Alive 0))) else none) = _
      rw [if_pos hc2]
    · rw [List.length_set]; exact hlen
    · intro row hmem
      rcases List.mem_or_eq_of_mem_set hmem with hmem2 | heq
      · exact hrow _ hmem2
      · rw [heq, List.length_set]; exact hrowlen
    · unfold getCellM
      rw [List.getElem?_set_eq_of_lt _ (by omega)]
      show (cells[r].set c (Cell.Alive 0))[c]? = some (Cell.Alive 0)
      exact List.getElem?_set_eq_of_lt _ (by omega)
    · intro r2 c2 _ _ hne
      unfold getCellM
      by_cases hrr : r2 = r
      · subst hrr
        rw [List.getElem?_set_eq_of_lt _ (by omega),
          List.getElem?_eq_getElem hr2]
        show (cells[r2].set c (Cell.Alive 0))[c2]? = cells[r2][c2]?
        rw [List.getElem?_set_ne (by omega)]
      · rw [List.getElem?_set_ne (by omega)]
  · intro hn
    by_cases hrh : r < h
    · have hr2 : r < cells.length := by omega
      have hrowlen : cells[r].length = w := hrow _ (List.getElem_mem hr2)
      unfold insertCell
      rw [List.getElem?_eq_getElem hr2]
      show (if c < cells[r].length then
        some (cells.set r (cells[r].set c (Cell.Alive 0))) else none) = none
      rw [if_neg (by omega)]
    · unfold insertCell
      rw [List.getElem?_eq_none (by omega)]

/-- Witness for C4 at a concrete 2×2 grid. -/
theorem claim4_witness :
    (0 < 2 ∧ 1 < 2 →
      ∃ cells2, insertCell [[Cell.Dead 4, Cell.Dead 0], [Cell.Alive 1, Cell.Dead 0]] 0 1 = some cells2 ∧
        cells2.length = 2 ∧ (∀ row ∈ cells2, row.length = 2) ∧
        getCellM cells2 0 1 = some (Cell.Alive 0) ∧
        (∀ r2 c2, r2 < 2 → c2 < 2 → ¬(r2 = 0 ∧ c2 = 1) →
          getCellM cells2 r2 c2 =
            getCellM [[Cell.Dead 4, Cell.Dead 0], [Cell.Alive 1, Cell.Dead 0]] r2 c2)) ∧
    (¬(0 < 2 ∧ 1 < 2) →
      insertCell [[Cell.Dead 4, Cell.Dead 0], [Cell.Alive 1, Cell.Dead 0]] 0 1 = none) :=
  claim4_insert 2 2 _ 0 1 (by decide) (by decide)

/-! ## Claim C5 -/

theorem castUsize_lt_iff {t : Int} {w : Nat} (hw : w < 2 ^ 63)
    (hlo : -(2 ^ 63 : Int) ≤ t) (hhi : t < 2 ^ 64) :
    (castUsize t < w) ↔ (0 ≤ t ∧ t < (w : Int)) := by
  unfold castUsize
  omega

theorem castUsize_eq {t : Int} (h0 : 0 ≤ t) (hW : t < 2 ^ 64) :
    ((castUsize t : Nat) : Int) = t := by
  unfold castUsize
  omega

theorem isizeOf_eq {n : Nat} (hn : n < 2 ^ 63) : isizeOf n = (n : Int) := by
  unfold isizeOf
  rw [Int.bmod_def]
  have hmod : ((n : Int) % ((2 ^ 64 : Nat) : Int)) = n := by
    push_cast
    omega
  rw [hmod]
  rw [if_pos (by push_cast; omega)]

theorem getCellM_set_row (cells : List (List Cell)) (i : Nat)
    (rowNew : List Cell) (r c : Nat) (hi : i < cells.length) :
    getCellM (cells.set i rowNew) r c =
      if r = i then rowNew[c]? else getCellM cells r c := by
  unfold getCellM
  by_cases hri : r = i
  · subst hri
    rw [if_pos rfl, List.getElem?_set_eq_of_lt _ hi]
  · rw [if_neg hri, List.getElem?_set_ne (fun hh => hri hh.symm)]

theorem setMat_length (cells : List (List Cell)) (r c : Nat) (v : Cell) :
    (setMat cells r c v).length = cells.length := by
  unfold setMat
  rcases cells[r]? with _ | rowL
  · rfl
  · exact List.length_set ..

theorem setMat_rows {w : Nat} {cells : List (List Cell)}
    (hrow : ∀ row ∈ cells, row.length = w) (r c : Nat) (v : Cell) :
    ∀ row ∈ setMat cells r c v, row.length = w := by
  unfold setMat
  rcases hx : cells[r]? with _ | rowL
  · exact hrow
  · intro row hmem
    rcases List.mem_or_eq_of_mem_set hmem with hmem2 | heq
    · exact hrow _ hmem2
    · rw [heq, List.length_set]
      obtain ⟨hlt, hval⟩ := List.getElem?_eq_some_iff.mp hx
      exact hval ▸ hrow _ (List.getElem_mem hlt)

theorem getCellM_setMat {h w : Nat} {cells : List (List Cell)}
    (hlen : cells.length = h) (hrow : ∀ row ∈ cells, row.length = w)
    {ry cx r c : Nat} (hry : ry < h) (hcx : cx < w) (v : Cell) :
    getCellM (setMat cells ry cx v) r c =
      if r = ry ∧ c = cx then some v else getCellM cells r c := by
  have hry2 : ry < cells.length := by omega
  have hrowlen : cells[ry].length = w := hrow _ (List.getElem_mem hry2)
  unfold setMat
  rw [List.getElem?_eq_getElem hry2]
  show getCellM (cells.set ry (cells[ry].set cx v)) r c = _
  rw [getCellM_set_row _ _ _ _ _ hry2]
  by_cases hrr : r = ry
  · rw [if_pos hrr]
    by_cases hcc : c = cx
    · rw [if_pos ⟨hrr, hcc⟩, hcc, List.getElem?_set_eq_of_lt _ (by omega)]
    · rw [if_neg (by tauto), List.getElem?_set_ne (by omega)]
      subst hrr
      unfold getCellM
      rw [List.getElem?_eq_getElem hry2]
  · rw [if_neg hrr, if_neg (by tauto : ¬(r = ry ∧ c = cx))]

/-- One step of the stamping fold. -/
theorem stampPattern_cons (w h : Nat) (cells : List (List Cell))
    (p : Int × Int) (rest : List (Int × Int)) :
    stampPattern w h cells (p :: rest) =
      stampPattern w h
        (if castUsize (p.2 + isizeOf (h / 2)) < h ∧ castUsize (p.1 + isizeOf (w / 2)) < w
         then setMat cells (castUsize (p.2 + isizeOf (h / 2)))
           (castUsize (p.1 + isizeOf (w / 2))) (Cell.Alive 0)
         else cells) rest := rfl

theorem stampPattern_length (w h : Nat) :
    ∀ (pcells : List (Int × Int)) (cells : List (List Cell)),
      (stampPattern w h cells pcells).length = cells.length := by
  intro pcells
  induction pcells with
  | nil => intro cells; rfl
  | cons p rest ih =>
    intro cells
    rw [stampPattern_cons, ih]
    split_ifs
    · exact setMat_length ..
    · rfl

theorem stampPattern_rows (w h : Nat) :
    ∀ (pcells : List (Int × Int)) (cells : List (List Cell)),
      (∀ row ∈ cells, row.length = w) →
      ∀ row ∈ stampPattern w h cells pcells, row.length = w := by
  intro pcells
  induction pcells with
  | nil => intro cells hrow; exact hrow
  | cons p rest ih =>
    intro cells hrow
    rw [stampPattern_cons]
    apply ih
    split_ifs
    · exact setMat_rows hrow _ _ _
    · exact hrow

set_option maxHeartbeats 1600000 in
theorem stampPattern_get (w h : Nat) (hw : w < 2 ^ 63) (hh : h < 2 ^ 63) :
    ∀ (pcells : List (Int × Int)) (cells : List (List Cell)),
      cells.length = h → (∀ row ∈ cells, row.length = w) →
      (∀ p ∈ pcells, -(2 ^ 63 : Int) ≤ p.1 ∧ p.1 < 2 ^ 63 ∧
        -(2 ^ 63 : Int) ≤ p.2 ∧ p.2 < 2 ^ 63) →
      ∀ r c, r < h → c < w →
        getCellM (stampPattern w h cells pcells) r c =
          (if ∃ p ∈ pcells, p.1 + ((w / 2 : Nat) : Int) = (c : Int) ∧
              p.2 + ((h / 2 : Nat) : Int) = (r : Int)
           then some (Cell.Alive 0) else getCellM cells r c) := by
  have hw2 : (w / 2 : Nat) < 2 ^ 63 := by omega
  have hh2 : (h / 2 : Nat) < 2 ^ 63 := by omega
  intro pcells
  induction pcells with
  | nil =>
    intro cells _ _ _ r c _ _
    simp [stampPattern]
  | cons p rest ih =>
    intro cells hlen hrow hp r c hr hc
    have hpp := hp p (List.mem_cons_self p rest)
    have hprest : ∀ q ∈ rest, -(2 ^ 63 : Int) ≤ q.1 ∧ q.1 < 2 ^ 63 ∧
        -(2 ^ 63 : Int) ≤ q.2 ∧ q.2 < 2 ^ 63 :=
      fun q hq => hp q (List.mem_cons_of_mem p hq)
    rw [stampPattern_cons, isizeOf_eq hw2, isizeOf_eq hh2]
    have hx1 : -(2 ^ 63 : Int) ≤ p.1 + ((w / 2 : Nat) : Int) := by omega
    have hx2 : p.1 + ((w / 2 : Nat) : Int) < 2 ^ 64 := by omega
    have hy1 : -(2 ^ 63 : Int) ≤ p.2 + ((h / 2 : Nat) : Int) := by omega
    have hy2 : p.2 + ((h / 2 : Nat) : Int) < 2 ^ 64 := by omega
    have hsplit : (∃ q ∈ p :: rest, q.1 + ((w / 2 : Nat) : Int) = (c : Int) ∧
        q.2 + ((h / 2 : Nat) : Int) = (r : Int)) ↔
        ((p.1 + ((w / 2 : Nat) : Int) = (c : Int) ∧
          p.2 + ((h / 2 : Nat) : Int) = (r : Int)) ∨
        ∃ q ∈ rest, q.1 + ((w / 2 : Nat) : Int) = (c : Int) ∧
          q.2 + ((h / 2 : Nat) : Int) = (r : Int)) := by
      simp [List.mem_cons, or_and_right, exists_or, exists_eq_left]
    by_cases hcond : castUsize (p.2 + ((h / 2 : Nat) : Int)) < h ∧
        castUsize (p.1 + ((w / 2 : Nat) : Int)) < w
    · rw [if_pos hcond]
      obtain ⟨hcondY, hcondX⟩ := hcond
      have hYint := (castUsize_lt_iff hh hy1 hy2).mp hcondY
      have hXint := (castUsize_lt_iff hw hx1 hx2).mp hcondX
      have hYval := castUsize_eq hYint.1 hy2
      have hXval := castUsize_eq hXint.1 hx2
      rw [ih _ (by rw [setMat_length]; exact hlen) (setMat_rows hrow _ _ _) hprest r c hr hc,
        getCellM_setMat hlen hrow hcondY hcondX (Cell.Alive 0)]
      have hid : (r = castUsize (p.2 + ((h / 2 : Nat) : Int)) ∧
          c = castUsize (p.1 + ((w / 2 : Nat) : Int))) ↔
          (p.1 + ((w / 2 : Nat) : Int) = (c : Int) ∧
           p.2 + ((h / 2 : Nat) : Int) = (r : Int)) := by
        constructor
        · rintro ⟨hrY, hcX⟩
          constructor
          · rw [← hXval, ← hcX]
          · rw [← hYval, ← hrY]
        · rintro ⟨hcX, hrY⟩
          constructor
          · have : ((r : Nat) : Int) = ((castUsize (p.2 + ((h / 2 : Nat) : Int)) : Nat) : Int) := by
              rw [hYval, hrY]
            exact_mod_cast this
          · have : ((c : Nat) : Int) = ((castUsize (p.1 + ((w / 2 : Nat) : Int)) : Nat) : Int) := by
              rw [hXval, hcX]
            exact_mod_cast this
      simp only [hsplit]
      by_cases hrest : ∃ q ∈ rest, q.1 + ((w / 2 : Nat) : Int) = (c : Int) ∧
          q.2 + ((h / 2 : Nat) : Int) = (r : Int)
      · rw [if_pos hrest, if_pos (Or.inr hrest)]
      · rw [if_neg hrest]
        by_cases hhit : p.1 + ((w / 2 : Nat) : Int) = (c : Int) ∧
            p.2 + ((h / 2 : Nat) : Int) = (r : Int)
        · rw [if_pos (hid.mpr hhit), if_pos (Or.inl hhit)]
        · rw [if_neg (fun hcontra => hhit (hid.mp hcontra)),
            if_neg (fun hor => hor.elim hhit hrest)]
    · rw [if_neg hcond]
      rw [ih _ hlen hrow hprest r c hr hc]
      simp only [hsplit]
      have hnohit : ¬(p.1 + ((w / 2 : Nat) : Int) = (c : Int) ∧
          p.2 + ((h / 2 : Nat) : Int) = (r : Int)) := by
        rintro ⟨hcX, hrY⟩
        apply hcond
        constructor
        · rw [castUsize_lt_iff hh hy1 hy2, hrY]
          constructor
          · exact Int.natCast_nonneg r
          · exact_mod_cast hr
        · rw [castUsize_lt_iff hw hx1 hx2, hcX]
          constructor
          · exact Int.natCast_nonneg c
          · exact_mod_cast hc
      by_cases hrest : ∃ q ∈ rest, q.1 + ((w / 2 : Nat) : Int) = (c : Int) ∧
          q.2 + ((h / 2 : Nat) : Int) = (r : Int)
      · rw [if_pos hrest, if_pos (Or.inr hrest)]
      · rw [if_neg hrest, if_neg (fun hor => hor.elim hnohit hrest)]

/-- C5: stamping a pattern translates each live-cell offset by
`(width / 2, height / 2)` (integer floor division), sets every translated
coordinate inside `[0, width) × [0, height)` to `Alive` age 0, silently
discards every other translated coordinate (including ones with negative
components) without error, and leaves all untargeted cells unchanged; the
grid's shape is preserved.  (Hypotheses bound the dimensions and offsets by
what `usize`/`isize` can represent.) -/
theorem claim5_stamp (w h : Nat) (cells : List (List Cell))
    (pcells : List (Int × Int))
    (hlen : cells.length = h) (hrow : ∀ row ∈ cells, row.length = w)
    (hw : w < 2 ^ 63) (hh : h < 2 ^ 63)
    (hp : ∀ p ∈ pcells, -(2 ^ 63 : Int) ≤ p.1 ∧ p.1 < 2 ^ 63 ∧
      -(2 ^ 63 : Int) ≤ p.2 ∧ p.2 < 2 ^ 63) :
    (stampPattern w h cells pcells).length = h ∧
    (∀ row ∈ stampPattern w h cells pcells, row.length = w) ∧
    ∀ r c, r < h → c < w →
      ((∃ p ∈ pcells, p.1 + ((w / 2 : Nat) : Int) = (c : Int) ∧
          p.2 + ((h / 2 : Nat) : Int) = (r : Int)) →
        getCellM (stampPattern w h cells pcells) r c = some (Cell.Alive 0)) ∧
      (¬(∃ p ∈ pcells, p.1 + ((w / 2 : Nat) : Int) = (c : Int) ∧
          p.2 + ((h / 2 : Nat) : Int) = (r : Int)) →
        getCellM (stampPattern w h cells pcells) r c = getCellM cells r c) := by
  refine ⟨by rw [stampPattern_length]; exact hlen,
    stampPattern_rows w h pcells cells hrow, fun r c hr hc => ?_⟩
  have hget := stampPattern_get w h hw hh pcells cells hlen hrow hp r c hr hc
  constructor
  · intro hhit
    rw [hget, if_pos hhit]
  · intro hmiss
    rw [hget, if_neg hmiss]

/-- Witness for C5: a 2×2 grid and a pattern with one in-range offset, one
negative offset and one too-large offset. -/
theorem claim5_witness :
    (stampPattern 2 2 [[Cell.Dead 1, Cell.Dead 2], [Cell.Dead 3, Cell.Dead 4]]
       [(0, 0), (-5, 0), (1, 1)]).length = 2 ∧
    (∀ row ∈ stampPattern 2 2 [[Cell.Dead 1, Cell.Dead 2], [Cell.Dead 3, Cell.Dead 4]]
       [(0, 0), (-5, 0), (1, 1)], row.length = 2) ∧
    ∀ (r c : Nat), r < 2 → c < 2 →
      ((∃ p ∈ [((0 : Int), (0 : Int)), (-5, 0), (1, 1)],
          p.1 + ((2 / 2 : Nat) : Int) = (c : Int) ∧
          p.2 + ((2 / 2 : Nat) : Int) = (r : Int)) →
        getCellM (stampPattern 2 2 [[Cell.Dead 1, Cell.Dead 2], [Cell.Dead 3, Cell.Dead 4]]
          [(0, 0), (-5, 0), (1, 1)]) r c = some (Cell.Alive 0)) ∧
      (¬(∃ p ∈ [((0 : Int), (0 : Int)), (-5, 0), (1, 1)],
          p.1 + ((2 / 2 : Nat) : Int) = (c : Int) ∧
          p.2 + ((2 / 2 : Nat) : Int) = (r : Int)) →
        getCellM (stampPattern 2 2 [[Cell.Dead 1, Cell.Dead 2], [Cell.Dead 3, Cell.Dead 4]]
          [(0, 0), (-5, 0), (1, 1)]) r c =
          getCellM [[Cell.Dead 1, Cell.Dead 2], [Cell.Dead 3, Cell.Dead 4]] r c) :=
  claim5_stamp 2 2 _ _ (by decide) (by decide) (by decide) (by decide) (by decide)

/-! ## Claim C6: the metadata block -/

/-- C6 (amended: an `#N` line whose trimmed remainder is empty leaves the
name unchanged instead of overwriting it): each leading `'#'` line is
processed by its second character — `N` sets the name to the nonempty trimmed
remainder, `C`/`c` appends the trimmed remainder to any prior description
joined by a newline (so multiple `#C` lines accumulate), `O` overwrites the
author with the trimmed remainder, a bare `#` is ignored, and any other
second character aborts with a decode failure reporting that character (so
`"#Zgarbage"` fails identifying `'Z'`). -/
theorem claim6_meta :
    (∀ (pat : Pattern) (rest : List Char),
      metaLine pat ('#' :: 'N' :: rest) =
        .ok (if trimChars rest = [] then pat
          else { pat with name := some (trimChars rest) })) ∧
    (∀ (pat : Pattern) (rest : List Char),
      metaLine pat ('#' :: 'C' :: rest) =
        .ok { pat with description := some (appendDesc pat.description (trimChars rest)) } ∧
      metaLine pat ('#' :: 'c' :: rest) =
        .ok { pat with description := some (appendDesc pat.description (trimChars rest)) }) ∧
    (∀ (pat : Pattern) (rest : List Char),
      metaLine pat ('#' :: 'O' :: rest) = .ok { pat with author := some (trimChars rest) }) ∧
    (∀ pat : Pattern, metaLine pat ['#'] = .ok pat) ∧
    (∀ (pat : Pattern) (c : Char) (rest : List Char),
      c ≠ 'N' → c ≠ 'C' → c ≠ 'c' → c ≠ 'O' →
      metaLine pat ('#' :: c :: rest) = .error (.unknownMeta c)) ∧
    parse_rle_file "#Zgarbage" = .error (.unknownMeta 'Z') ∧
    (parse_rle_file "#C a\n#C b\nx = 1, y = 1\n!").map Pattern.description =
      .ok (some ("a\nb".data)) := by
  refine ⟨fun pat rest => rfl, fun pat rest => ⟨rfl, rfl⟩, fun pat rest => rfl,
    fun pat => rfl, ?_, by decide, by decide⟩
  intro pat c rest h1 h2 h3 h4
  simp only [metaLine, List.drop]
  rw [if_neg h1, if_neg (fun hor => hor.elim h2 h3), if_neg h4]

/-- Witness for C6 at the concrete line `"#Zgarbage"`. -/
theorem claim6_witness :
    metaLine {} ('#' :: 'Z' :: ("garbage".data)) = .error (.unknownMeta 'Z') :=
  claim6_meta.2.2.2.2.1 {} 'Z' ("garbage".data)
    (by decide) (by decide) (by decide) (by decide)

/-- C6 counterexample: on `"#N A\n#N\nx = 1, y = 1\n!"` the second `#N` line
(trimmed remainder empty) does not overwrite the name — the decoder returns
`name = some "A"`, not `some ""` as the claim's unconditional "sets
(overwrites) the name with the trimmed remainder" predicts. -/
theorem claim6_counterexample :
    (parse_rle_file "#N A\n#N\nx = 1, y = 1\n!").map Pattern.name = .ok (some ("A".data)) ∧
    some ("A".data) ≠ some ("".data) := by
  exact ⟨by decide, by decide⟩

/-! ## Claim C7: the header line -/

/-- C7 (amended: the missing-header failure presupposes that the metadata
block parsed; a header containing both `"x = "` and `"y = "` but fewer than
two `", "`-separated fields makes the decoder panic — an index-out-of-bounds
crash, not a returned error): the first non-`'#'` line is consumed as the
header; if none exists decoding fails with the missing-header error; when the
line contains both substrings and at least two `", "`-separated fields, the
first two fields are parsed, non-numeric values (after stripping the
`"x = "`/`"y = "` prefixes) giving a returned decode failure; a line without
both substrings leaves the bounding box unset and is still consumed. -/
theorem claim7_header :
    (∀ (s : List Char) (pat : Pattern),
      ((linesRust s).takeWhile startsHash).foldlM metaLine {} = Except.ok pat →
      (linesRust s).dropWhile startsHash = [] →
      parseRle s = .error .missingHeader) ∧
    (∀ (pat : Pattern) (line xf yf : List Char) (restf : List (List Char)),
      containsSub ("x = ".data) line = true →
      containsSub ("y = ".data) line = true →
      splitSubF (", ".data) line.length line = xf :: yf :: restf →
      headerLine pat line =
        (match parseUsize (removeSubF ("x = ".data) xf.length xf) with
         | none => .error (.parseNum (removeSubF ("x = ".data) xf.length xf))
         | some x =>
           match parseUsize (removeSubF ("y = ".data) yf.length yf) with
           | none => .error (.parseNum (removeSubF ("y = ".data) yf.length yf))
           | some y => .ok { pat with area := some (x, y) })) ∧
    (∀ (pat : Pattern) (line : List Char),
      containsSub ("x = ".data) line = true →
      containsSub ("y = ".data) line = true →
      (splitSubF (", ".data) line.length line).length < 2 →
      headerLine pat line = .error .headerPanic) ∧
    (∀ (pat : Pattern) (line : List Char),
      ¬(containsSub ("x = ".data) line = true ∧ containsSub ("y = ".data) line = true) →
      headerLine pat line = .ok pat) ∧
    (∀ (s : List Char) (pat : Pattern) (body : List (List Char)),
      parsePrelude s = .ok (pat, body) →
      ∃ hdr, (linesRust s).dropWhile startsHash = hdr :: body) := by
  refine ⟨?_, ?_, ?_, ?_, ?_⟩
  · intro s pat hfold hdrop
    unfold parseRle parsePrelude
    rw [hfold, hdrop]
  · intro pat line xf yf restf hx hy hs
    unfold headerLine
    rw [if_pos ⟨hx, hy⟩, hs]
  · intro pat line hx hy hlen
    unfold headerLine
    rw [if_pos ⟨hx, hy⟩]
    rcases hs : splitSubF (", ".data) line.length line with _ | ⟨a, _ | ⟨b, restf⟩⟩
    · rfl
    · rfl
    · rw [hs] at hlen
      simp only [List.length_cons] at hlen
      omega
  · intro pat line hn
    unfold headerLine
    rw [if_neg hn]
  · intro s pat body hok
    unfold parsePrelude at hok
    split at hok
    · cases hok
    · split at hok
      · cases hok
      · split at hok
        · cases hok
        · cases hok
          exact ⟨_, by assumption⟩

/-- Witness for C7: the header `"x = 3 y = 3"` (both substrings, no `", "`
separator) hits the `v[1]` indexing panic. -/
theorem claim7_witness :
    headerLine {} ("x = 3 y = 3".data) = .error .headerPanic :=
  claim7_header.2.2.1 {} ("x = 3 y = 3".data) (by decide) (by decide) (by decide)

/-- C7 counterexample: on the input `"x = 3 y = 3"` (whose header contains
both substrings but no `", "`), the decoder panics (`headerPanic`, the
modelled index-out-of-bounds crash) instead of returning the parse failure
the claim predicts for its non-numeric field; and on `"#Z"` (no non-`'#'`
line at all) decoding fails with the unknown-directive error, not the
missing-header error the claim predicts. -/
theorem claim7_counterexample :
    parse_rle_file "x = 3 y = 3" = .error .headerPanic ∧
    (∀ s : List Char, RleError.headerPanic ≠ RleError.parseNum s) ∧
    parse_rle_file "#Z" = .error (.unknownMeta 'Z') ∧
    RleError.unknownMeta 'Z' ≠ RleError.missingHeader :=
  ⟨by decide, fun _ h => RleError.noConfusion h, by decide, by decide⟩

/-! ## Claim C8: glider decoding and termination -/

/-- C8: decoding `"#N Glider\nx = 3, y = 3\nbo$2bo$3o!"` succeeds with
name `"Glider"`, bounding box `(3,3)` and exactly the five glider cells
`(1,0),(2,1),(0,2),(1,2),(2,2)`; in general `'!'` in the body terminates
decoding immediately and successfully with the Pattern built so far
regardless of any remaining input (as the trailing-garbage example also
shows), and reaching the end of input without `'!'` returns the accumulated
Pattern successfully. -/
theorem claim8_glider :
    parse_rle_file "#N Glider\nx = 3, y = 3\nbo$2bo$3o!" =
      .ok { cells := [(1, 0), (2, 1), (0, 2), (1, 2), (2, 2)],
            name := some ("Glider".data), description := none, author := none,
            area := some (3, 3) } ∧
    (∀ (pat : Pattern) (y x amount : Int) (rest : List Char),
      runSeg pat y x amount ('!' :: rest) = SegOut.done pat) ∧
    (∀ (pat : Pattern) (y : Int), runData pat y [] = Except.ok pat) ∧
    (parse_rle_file "x = 1, y = 1\no!zzz").map Pattern.cells = .ok [(0, 0)] :=
  ⟨by decide, fun pat y x amount rest => rfl, fun pat y => rfl, by decide⟩

/-! ## Claim C9: row segments and the row cursor -/

/-- C9 (amended: the row cursor advances by the run-count still pending when
the segment ends — the segment's trailing digit run, which in the original
text is the numeric prefix written immediately before the literal `'$'` — if
nonzero, else by 1; it is not the segment's leading run-count, which may have
been consumed by a `b`/`o` run inside the segment): the body is split on
`'$'`, each segment starts with the column cursor `x = 0` and `amount = 0`,
the row cursor starts at 0, and a run of `k` row-ends written as `k$`
advances the row cursor by `k` (the concrete example decodes `o3$o!` to
`[(0,0),(0,3)]`). -/
theorem claim9_rows :
    (∀ s : List Char, parseRle s =
      (match parsePrelude s with
       | .error e => .error e
       | .ok (pat, body) => runData pat 0 (splitChar '$' body.flatten))) ∧
    (∀ (pat : Pattern) (y : Int) (seg : List Char) (rest : List (List Char)),
      runData pat y (seg :: rest) =
        (match runSeg pat y 0 0 seg with
         | .done p => .ok p
         | .err c => .error (.unexpectedChar c)
         | .cont p amount => runData p (y + (if amount ≠ 0 then amount else 1)) rest)) ∧
    (parse_rle_file "x = 1, y = 1\no3$o!").map Pattern.cells = .ok [(0, 0), (0, 3)] :=
  ⟨fun s => rfl, fun pat y seg rest => rfl, by decide⟩

/-- C9 counterexample: in `"x = 1, y = 1\n3o$o!"` the first segment `3o` has
leading run-count 3 (consumed by the `o` run), yet the row cursor advances by
1, not 3: the decoded cells are `[(0,0),(1,0),(2,0),(0,1)]` — the second row
lands at `y = 1`, and no cell `(0,3)` (which the claim's "advances by the
segment's leading run-count" reading predicts) is produced. -/
theorem claim9_counterexample :
    (parse_rle_file "x = 1, y = 1\n3o$o!").map Pattern.cells =
      .ok [(0, 0), (1, 0), (2, 0), (0, 1)] ∧
    ((0 : Int), (3 : Int)) ∉ [((0 : Int), (0 : Int)), (1, 0), (2, 0), (0, 1)] := by
  exact ⟨by decide, by decide⟩


end GoL
